import Mathlib

/-!
Verification of the mizuno Mercurial command-server client.

The repository contains two implementations of the protocol engine:
the blocking one in `src/lib.rs` (the crate root) and the
tokio-based rewrite in `src/connection.rs`.  Definitions for the
former live in namespace `Lib`, definitions for the latter in
namespace `Connection`.  Shared pieces (the capability table from
`src/capabilities.rs` / `src/build.rs`, big-endian encoding from the
`byteorder` crate, and the `run_command` write sequence, which is
identical in both files) live at top level.

Bytes are modelled as natural numbers (a real stream byte is below
256), byte buffers as `List Nat`, and Rust `usize` subtraction —
which is an arithmetic-underflow program error when the subtrahend
exceeds the minuend — as an `Option`-valued operation.
-/

/-- Big-endian decoding of four bytes into an unsigned 32-bit value,
as performed by `byteorder::BigEndian::read_u32`. -/
def readBE32 (b0 b1 b2 b3 : Nat) : Nat :=
  ((b0 * 256 + b1) * 256 + b2) * 256 + b3

/-- Big-endian encoding of an unsigned 32-bit value into four bytes,
as performed by `byteorder::BigEndian::write_u32`. -/
def be32bytes (m : Nat) : List Nat :=
  [m / 16777216 % 256, m / 65536 % 256, m / 256 % 256, m % 256]

deriving instance DecidableEq for Except

/-- Rust `usize` subtraction.  Underflow (subtrahend larger than the
minuend) is an arithmetic-overflow program error in Rust, modelled
here as `none`. -/
def usizeSub (a b : Nat) : Option Nat :=
  if b ≤ a then some (a - b) else none

/-- Capability flags, from `src/capabilities.rs` and `src/lib.rs`
(the two files declare the identical enum). -/
inductive Capability where
  | RunCommand : Capability
  | GetEncoding : Capability
  | Unknown : List Char → Capability
deriving DecidableEq, Repr

/-- The `From<S> for Capability` impl: look the token up in the
static `CAPABILITIES` table generated by `src/build.rs` (entries
`"runcommand"` and `"getencoding"`), falling back to
`Capability::Unknown` carrying the original text. -/
def capabilityFrom (s : List Char) : Capability :=
  if s = "runcommand".toList then Capability.RunCommand
  else if s = "getencoding".toList then Capability.GetEncoding
  else Capability.Unknown s

namespace Connection

/-- Channel tags, from `src/connection.rs`. -/
inductive Channel where
  | Output | Error | Debug | Result | Input | LineInput
deriving DecidableEq, Repr

/-- `InvalidChannelError` from `src/connection.rs`: carries the
offending channel byte. -/
structure InvalidChannelError where
  channel : Nat
deriving DecidableEq, Repr

/-- `Channel::try_from` from `src/connection.rs`: decode one channel
tag byte, or report the unknown byte in an `InvalidChannelError`. -/
def Channel.tryFrom (c : Nat) : Except InvalidChannelError Channel :=
  if c = 111 then .ok Channel.Output          -- byte o
  else if c = 101 then .ok Channel.Error      -- byte e
  else if c = 100 then .ok Channel.Debug      -- byte d
  else if c = 114 then .ok Channel.Result     -- byte r
  else if c = 73 then .ok Channel.Input       -- byte I
  else if c = 76 then .ok Channel.LineInput   -- byte L
  else .error ⟨c⟩

/-- `Chunk` from `src/connection.rs`: Output/Error/Debug/Result carry
a byte buffer, Input/LineInput carry a 32-bit integer. -/
inductive Chunk where
  | Output : List Nat → Chunk
  | Error : List Nat → Chunk
  | Debug : List Nat → Chunk
  | Result : List Nat → Chunk
  | Input : Nat → Chunk
  | LineInput : Nat → Chunk
deriving DecidableEq, Repr

/-- `Chunk::channel` from `src/connection.rs`. -/
def Chunk.channel : Chunk → Channel
  | .Output _ => .Output
  | .Error _ => .Error
  | .Debug _ => .Debug
  | .Result _ => .Result
  | .Input _ => .Input
  | .LineInput _ => .LineInput

/-- `ReadChunkError` from `src/connection.rs`, labelling which
sub-read of a frame failed. -/
inductive ReadChunkError where
  | ReadChannel : ReadChunkError
  | ReadLength : ReadChunkError
  | ReadData : ReadChunkError
  | InvalidChannel : InvalidChannelError → ReadChunkError
deriving DecidableEq, Repr

/-- Length-prefixed branch of `Connection::read_chunk_from`
(`src/connection.rs`, Output/Error/Debug/Result channels): read a
4-byte big-endian length, then exactly that many payload bytes.  A
premature end of stream is the distinctly labelled error of the
failing sub-read.  The pair's second component is the unconsumed
remainder of the stream. -/
def readData (rest : List Nat) (mk : List Nat → Chunk) :
    Except ReadChunkError Chunk × List Nat :=
  match rest with
  | b0 :: b1 :: b2 :: b3 :: rest2 =>
    let len := readBE32 b0 b1 b2 b3
    if rest2.length < len then (.error .ReadData, [])
    else (.ok (mk (rest2.take len)), rest2.drop len)
  | _ => (.error .ReadLength, [])

/-- Fixed-size-integer branch of `Connection::read_chunk_from`
(`src/connection.rs`, Input/LineInput channels): read a 4-byte
big-endian integer.  The source maps a failure of this read to
`ReadChunkError::ReadData`. -/
def readVal (rest : List Nat) (mk : Nat → Chunk) :
    Except ReadChunkError Chunk × List Nat :=
  match rest with
  | b0 :: b1 :: b2 :: b3 :: rest2 => (.ok (mk (readBE32 b0 b1 b2 b3)), rest2)
  | _ => (.error .ReadData, [])

/-- `Connection::read_chunk_from` from `src/connection.rs`: read one
channel tag byte, dispatch on the channel, and read the frame body.
Note that the Result channel goes through the length-prefixed branch
in this file. -/
def readChunkFrom : List Nat → Except ReadChunkError Chunk × List Nat
  | [] => (.error .ReadChannel, [])
  | c :: rest =>
    match Channel.tryFrom c with
    | .error e => (.error (.InvalidChannel e), rest)
    | .ok ch =>
      match ch with
      | .Output => readData rest Chunk.Output
      | .Error => readData rest Chunk.Error
      | .Debug => readData rest Chunk.Debug
      | .Result => readData rest Chunk.Result
      | .Input => readVal rest Chunk.Input
      | .LineInput => readVal rest Chunk.LineInput

/-- State of a `CommandIterator` (`src/connection.rs`): the
connection's buffered byte stream and the `finished` flag. -/
structure IterState where
  bytes : List Nat
  finished : Bool
deriving DecidableEq, Repr

/-- `CommandIterator::next` from `src/connection.rs`: if `finished`,
yield nothing and touch nothing; otherwise invoke the Frame Reader
once; a read error is yielded as an item (the `finished` flag is not
set on that path); a chunk is yielded as an item and `finished` is
set exactly when its channel is Result. -/
def CommandIterator.next (s : IterState) :
    Option (Except ReadChunkError Chunk) × IterState :=
  if s.finished then (none, s)
  else
    match readChunkFrom s.bytes with
    | (.error e, rest) => (some (.error e), ⟨rest, false⟩)
    | (.ok c, rest) => (some (.ok c), ⟨rest, c.channel = Channel.Result⟩)

/-- Trace of `n` successive `CommandIterator::next` calls: the list
of produced items and the final state. -/
def iterSteps (s : IterState) :
    Nat → List (Option (Except ReadChunkError Chunk)) × IterState
  | 0 => ([], s)
  | n + 1 =>
    let r := CommandIterator.next s
    let rs := iterSteps r.2 n
    (r.1 :: rs.1, rs.2)

/-- `HelloError` from `src/connection.rs`. -/
inductive HelloError where
  | InvalidChannel : Channel → HelloError
  | DecodeError : HelloError
  | NoEncoding : HelloError
  | NoCapabilities : HelloError
  | MissingRunCommand : HelloError
deriving DecidableEq, Repr

/-- Split a character list at every occurrence of `sep`, keeping
empty pieces, as Rust `str::split` does. -/
def splitChar (sep : Char) : List Char → List (List Char)
  | [] => [[]]
  | c :: cs =>
    if c = sep then [] :: splitChar sep cs
    else
      match splitChar sep cs with
      | g :: gs => (c :: g) :: gs
      | [] => [[c]]

/-- Rust `str::lines`: split on the newline character, drop a single
trailing empty piece, and strip one trailing carriage return from
each line. -/
def rustLines (cs : List Char) : List (List Char) :=
  let parts := splitChar (Char.ofNat 10) cs
  let parts := if parts.getLast? = some [] then parts.dropLast else parts
  parts.map fun l => if l.getLast? = some (Char.ofNat 13) then l.dropLast else l

/-- `line.find(": ")` followed by `split_at` and dropping the two
separator characters (`src/connection.rs`, `parse_hello`): split a
line at the first colon-space occurrence into key and value. -/
def splitKeyValue : List Char → Option (List Char × List Char)
  | [] => none
  | c :: cs =>
    if c = Char.ofNat 58 ∧ cs.head? = some (Char.ofNat 32) then
      some ([], cs.tail)
    else
      (splitKeyValue cs).map fun kv => (c :: kv.1, kv.2)

/-- One iteration of the line loop in `Connection::parse_hello`
(`src/connection.rs`): a line without a colon-space separator is
skipped; a capabilities line resolves its space-separated tokens
through the capability table and replaces the capability field; an
encoding line replaces the encoding field; any other key is
ignored. -/
def helloStep (st : Option (List Char) × Option (List Capability))
    (line : List Char) : Option (List Char) × Option (List Capability) :=
  match splitKeyValue line with
  | none => st
  | some (k, v) =>
    if k = "capabilities".toList then
      (st.1, some ((splitChar (Char.ofNat 32) v).map capabilityFrom))
    else if k = "encoding".toList then (some v, st.2)
    else st

/-- The encoding and capability fields accumulated by the line loop
of `Connection::parse_hello` over the decoded hello payload. -/
def helloFields (payload : List Char) :
    Option (List Char) × Option (List Capability) :=
  (rustLines payload).foldl helloStep (none, none)

/-- `Connection::parse_hello` from `src/connection.rs`, after the
chunk has been matched as Output and its payload decoded as UTF-8
text: scan the lines, then require an encoding (else `NoEncoding`),
then a capability set (else `NoCapabilities`), then the RunCommand
capability (else `MissingRunCommand`).  An error here makes
`Connection::from_builder` fail, so no Connection is produced. -/
def parseHello (payload : List Char) :
    Except HelloError (List Char × List Capability) :=
  match helloFields payload with
  | (none, _) => .error .NoEncoding
  | (some _, none) => .error .NoCapabilities
  | (some enc, some caps) =>
    if Capability.RunCommand ∈ caps then .ok (enc, caps)
    else .error .MissingRunCommand

end Connection

namespace Lib

/-- `Chunk` from `src/lib.rs`: here Result carries the decoded 32-bit
integer, not a byte buffer. -/
inductive Chunk where
  | Output : List Nat → Chunk
  | Error : List Nat → Chunk
  | Result : Nat → Chunk
deriving DecidableEq, Repr

/-- Outcome of `Connection::read_chunk_from` from `src/lib.rs`.
`ioError` models a propagated `io::Error` (premature end of stream);
`fatal` models process abort, i.e. the
`unimplemented!` arms for the d, I and L channels and the
`panic!` arm for an unknown channel byte. -/
inductive ReadOutcome where
  | ok : Chunk → List Nat → ReadOutcome
  | ioError : ReadOutcome
  | fatal : ReadOutcome
deriving DecidableEq, Repr

/-- `Connection::read_chunk_from` from `src/lib.rs`: read one channel
tag byte; for o and e read a 4-byte big-endian length then that many
payload bytes; for r read a 4-byte big-endian integer directly; abort
on every other tag. -/
def readChunkFrom : List Nat → ReadOutcome
  | [] => .ioError
  | c :: rest =>
    if c = 111 then                           -- byte o
      match rest with
      | b0 :: b1 :: b2 :: b3 :: rest2 =>
        let len := readBE32 b0 b1 b2 b3
        if rest2.length < len then .ioError
        else .ok (Chunk.Output (rest2.take len)) (rest2.drop len)
      | _ => .ioError
    else if c = 101 then                      -- byte e
      match rest with
      | b0 :: b1 :: b2 :: b3 :: rest2 =>
        let len := readBE32 b0 b1 b2 b3
        if rest2.length < len then .ioError
        else .ok (Chunk.Error (rest2.take len)) (rest2.drop len)
      | _ => .ioError
    else if c = 114 then                      -- byte r
      match rest with
      | b0 :: b1 :: b2 :: b3 :: rest2 =>
        .ok (Chunk.Result (readBE32 b0 b1 b2 b3)) rest2
      | _ => .ioError
    else .fatal

end Lib

/-- The literal bytes of `"runcommand\n"`, written first by
`Connection::run_command` (identical in `src/connection.rs` and
`src/lib.rs`). -/
def rcHeader : List Nat :=
  [114, 117, 110, 99, 111, 109, 109, 97, 110, 100, 10]

/-- The argument loop of `Connection::run_command`: each argument is
written as raw bytes, with a single NUL byte after every argument
except the last (the source writes the separator whenever the index
is not the final one). -/
def nulJoin : List (List Nat) → List Nat
  | [] => []
  | [a] => a
  | a :: b :: rest => a ++ 0 :: nulJoin (b :: rest)

/-- The length computed by `Connection::run_command`:
`command.iter().map(len).sum() + command.len() - 1` in `usize`
arithmetic, i.e. the sum of the argument byte lengths plus the
argument count, minus one with underflow on an empty list. -/
def runCommandLen (args : List (List Nat)) : Option Nat :=
  usizeSub ((args.map List.length).sum + args.length) 1

/-- The value the truncating `len as u32` cast and the length formula
produce on a non-empty list, as a plain natural number (`Nat`
subtraction agrees with the `usize` result whenever the list is
non-empty). -/
def totalLen (args : List (List Nat)) : Nat :=
  (args.map List.length).sum + args.length - 1

/-- Everything `Connection::run_command` writes to the subprocess
input pipe: the header, the 4-byte big-endian length field holding
the computed length truncated to 32 bits by the `len as u32` cast,
and the NUL-joined arguments.  `none` models the arithmetic
underflow of the length computation, which in the source happens
before any byte is written. -/
def runCommandWrites (args : List (List Nat)) : Option (List Nat) :=
  (runCommandLen args).map fun len =>
    rcHeader ++ be32bytes (len % 4294967296) ++ nulJoin args

/-- Wire encoding of an Output frame (spec section 4.2): the o tag
byte, the 4-byte big-endian payload length, the payload. -/
def outputFrame (a : List Nat) : List Nat := 111 :: be32bytes a.length ++ a

/-- Wire bytes of the Result frame carrying exit status 0 as produced
by the external protocol (r tag, length 4, the 4-byte value 0); this
is the Result frame the repository's own tests expect. -/
def resultFrame0 : List Nat := [114, 0, 0, 0, 4, 0, 0, 0, 0]

/-! ## Helper lemmas -/

theorem readBE32_be32bytes (m : Nat) :
    readBE32 (m / 16777216 % 256) (m / 65536 % 256) (m / 256 % 256) (m % 256)
      = m % 4294967296 := by
  unfold readBE32
  omega

theorem readData_exact (pay tail : List Nat) (mk : List Nat → Connection.Chunk)
    (h : pay.length < 4294967296) :
    Connection.readData (be32bytes pay.length ++ (pay ++ tail)) mk
      = (.ok (mk pay), tail) := by
  simp only [be32bytes, List.cons_append, List.nil_append, Connection.readData]
  rw [readBE32_be32bytes, Nat.mod_eq_of_lt h]
  rw [if_neg (by rw [List.length_append]; omega)]
  rw [List.take_left, List.drop_left]

theorem read_output_frame (a tail : List Nat) (h : a.length < 4294967296) :
    Connection.readChunkFrom (111 :: (be32bytes a.length ++ (a ++ tail)))
      = (.ok (.Output a), tail) := by
  show Connection.readData (be32bytes a.length ++ (a ++ tail)) Connection.Chunk.Output = _
  exact readData_exact a tail Connection.Chunk.Output h

theorem read_result0_frame (tail : List Nat) :
    Connection.readChunkFrom (114 :: 0 :: 0 :: 0 :: 4 :: 0 :: 0 :: 0 :: 0 :: tail)
      = (.ok (.Result [0, 0, 0, 0]), tail) := by
  show Connection.readData (0 :: 0 :: 0 :: 4 :: 0 :: 0 :: 0 :: 0 :: tail)
    Connection.Chunk.Result = _
  exact readData_exact [0, 0, 0, 0] tail Connection.Chunk.Result (by norm_num)

theorem next_output_frame (a tail : List Nat) (h : a.length < 4294967296) :
    Connection.CommandIterator.next ⟨111 :: (be32bytes a.length ++ (a ++ tail)), false⟩
      = (some (.ok (.Output a)), ⟨tail, false⟩) := by
  simp [Connection.CommandIterator.next, read_output_frame a tail h, Connection.Chunk.channel]

theorem next_result0_frame (tail : List Nat) :
    Connection.CommandIterator.next ⟨114 :: 0 :: 0 :: 0 :: 4 :: 0 :: 0 :: 0 :: 0 :: tail, false⟩
      = (some (.ok (.Result [0, 0, 0, 0])), ⟨tail, true⟩) := by
  simp [Connection.CommandIterator.next, read_result0_frame tail, Connection.Chunk.channel]

theorem iterSteps_finished (n : Nat) (bytes : List Nat) :
    Connection.iterSteps ⟨bytes, true⟩ n = (List.replicate n none, ⟨bytes, true⟩) := by
  induction n with
  | zero => simp [Connection.iterSteps]
  | succ n ih =>
    simp [Connection.iterSteps, Connection.CommandIterator.next, ih, List.replicate_succ]

theorem iterSteps_succ (s : Connection.IterState) (n : Nat) :
    Connection.iterSteps s (n + 1)
      = ((Connection.CommandIterator.next s).1
          :: (Connection.iterSteps (Connection.CommandIterator.next s).2 n).1,
         (Connection.iterSteps (Connection.CommandIterator.next s).2 n).2) := rfl

theorem nulJoin_cons_length (rest : List (List Nat)) :
    ∀ a : List Nat,
      (nulJoin (a :: rest)).length
        = a.length + ((rest.map List.length).sum + rest.length) := by
  induction rest with
  | nil => intro a; simp [nulJoin]
  | cons b bs ih =>
    intro a
    have hb := ih b
    simp only [nulJoin, List.length_append, List.length_cons, List.map_cons, List.sum_cons]
    simp only [nulJoin] at hb
    omega

theorem nulJoin_length (args : List (List Nat)) (h : args ≠ []) :
    (nulJoin args).length = totalLen args := by
  match args with
  | [] => exact absurd rfl h
  | a :: rest =>
    have := nulJoin_cons_length rest a
    simp only [totalLen, List.map_cons, List.sum_cons, List.length_cons]
    omega

theorem runCommandLen_nonempty (args : List (List Nat)) (h : args ≠ []) :
    runCommandLen args = some (totalLen args) := by
  match args with
  | [] => exact absurd rfl h
  | a :: rest =>
    simp only [runCommandLen, usizeSub, totalLen, List.length_cons]
    rw [if_pos (by omega)]

theorem totalLen_bigArg :
    totalLen [List.replicate 4294967296 (97 : Nat)] = 4294967296 := by
  rw [totalLen, List.map_cons, List.map_nil, List.sum_cons, List.sum_nil,
    List.length_replicate, List.length_cons, List.length_nil]
  norm_num

theorem runCommandLen_bigArg :
    runCommandLen [List.replicate 4294967296 (97 : Nat)] = some 4294967296 := by
  rw [runCommandLen_nonempty _ (List.cons_ne_nil _ _), totalLen_bigArg]

/-! ## Claim C1 -/

/-- Claim C1, counterexample: the tokio Frame Reader
(`Connection::read_chunk_from` in `src/connection.rs`) does not read
exactly 4 further bytes after an r tag and decode them as an exit
status; it treats them as a length prefix.  On the frame bytes
r,0,0,0,1,7 it consumes the fifth byte 7 as payload, leaving an
empty remainder, whereas reading exactly 4 further bytes would leave
the remainder [7]. -/
theorem c1_conn_result_length_prefixed :
    Connection.readChunkFrom [114, 0, 0, 0, 1, 7]
      = (.ok (.Result [7]), []) ∧ ([] : List Nat) ≠ [7] := by decide

/-- Claim C1, amended: the blocking Frame Reader
(`Connection::read_chunk_from` in `src/lib.rs`) reads exactly 4
further bytes for every frame whose channel tag byte is r and decodes
them as a big-endian unsigned 32-bit exit status, not as a length
prefix; in particular the bytes r,0,0,0,0 decode to Result 0.  The
tokio reader in `src/connection.rs` instead retains the
length-prefixed treatment of the Result channel (see the
counterexample). -/
theorem c1_lib_result_reads_integer :
    (∀ b0 b1 b2 b3 : Nat, ∀ rest : List Nat,
      Lib.readChunkFrom (114 :: b0 :: b1 :: b2 :: b3 :: rest)
        = .ok (.Result (readBE32 b0 b1 b2 b3)) rest)
    ∧ Lib.readChunkFrom [114, 0, 0, 0, 0] = .ok (.Result 0) [] := by
  constructor
  · intro b0 b1 b2 b3 rest
    rfl
  · decide

/-! ## Claim C2 -/

/-- Claim C2: the Response Sequence over the underlying frame stream
Output(a), Output(b), Result(0) yields exactly those three chunks,
one per Frame Reader invocation and in order, and terminates
inclusively at the Result chunk; and once the iterator is finished,
every further step yields nothing and leaves the buffered bytes
untouched.  The Result chunk of `src/connection.rs` carries the wire
payload bytes 0,0,0,0, i.e. exit status 0. -/
theorem c2_sequence_terminates_at_result :
    (∀ a b extra : List Nat,
      a.length < 4294967296 → b.length < 4294967296 →
      Connection.iterSteps
          ⟨outputFrame a ++ (outputFrame b ++ (resultFrame0 ++ extra)), false⟩ 3
        = ([some (.ok (.Output a)), some (.ok (.Output b)),
            some (.ok (.Result [0, 0, 0, 0]))],
           ⟨extra, true⟩))
    ∧ (∀ n : Nat, ∀ bytes : List Nat,
        Connection.iterSteps ⟨bytes, true⟩ n = (List.replicate n none, ⟨bytes, true⟩)) := by
  constructor
  · intro a b extra ha hb
    have e1 : Connection.CommandIterator.next
        ⟨outputFrame a ++ (outputFrame b ++ (resultFrame0 ++ extra)), false⟩
        = (some (.ok (.Output a)), ⟨outputFrame b ++ (resultFrame0 ++ extra), false⟩) := by
      have h := next_output_frame a (outputFrame b ++ (resultFrame0 ++ extra)) ha
      simpa [outputFrame, List.append_assoc] using h
    have e2 : Connection.CommandIterator.next
        ⟨outputFrame b ++ (resultFrame0 ++ extra), false⟩
        = (some (.ok (.Output b)), ⟨resultFrame0 ++ extra, false⟩) := by
      have h := next_output_frame b (resultFrame0 ++ extra) hb
      simpa [outputFrame, List.append_assoc] using h
    have e3 : Connection.CommandIterator.next ⟨resultFrame0 ++ extra, false⟩
        = (some (.ok (.Result [0, 0, 0, 0])), ⟨extra, true⟩) := by
      have h := next_result0_frame extra
      simpa [resultFrame0] using h
    rw [show (3 : Nat) = 2 + 1 from rfl, iterSteps_succ, e1]
    rw [show (2 : Nat) = 1 + 1 from rfl, iterSteps_succ, e2]
    rw [show (1 : Nat) = 0 + 1 from rfl, iterSteps_succ, e3]
    rfl
  · exact fun n bytes => iterSteps_finished n bytes

/-- Claim C2, witness: a concrete stream with Output [104],
Output [105], a Result-0 frame and two extra buffered bytes yields
exactly the three chunks and stops with the extra bytes untouched. -/
theorem c2_sequence_witness :
    (([104] : List Nat).length < 4294967296)
    ∧ (([105] : List Nat).length < 4294967296)
    ∧ Connection.iterSteps
        ⟨[111, 0, 0, 0, 1, 104, 111, 0, 0, 0, 1, 105,
          114, 0, 0, 0, 4, 0, 0, 0, 0, 9, 9], false⟩ 3
        = ([some (.ok (.Output [104])), some (.ok (.Output [105])),
            some (.ok (.Result [0, 0, 0, 0]))],
           ⟨[9, 9], true⟩) :=
  ⟨by decide, by decide, by
    have h := c2_sequence_terminates_at_result.1 [104] [105] [9, 9] (by decide) (by decide)
    exact h⟩

/-! ## Claim C3 -/

/-- Claim C3, counterexample: a read error is not the terminal item
of the Response Sequence.  On an already-exhausted stream the first
step yields a ReadChannel error item, but the iterator does not
record completion: the second step performs another read and yields
another error item instead of reporting completion. -/
theorem c3_error_not_terminal_counterexample :
    Connection.iterSteps ⟨[], false⟩ 2
      = ([some (.error .ReadChannel), some (.error .ReadChannel)], ⟨[], false⟩)
    ∧ (Connection.CommandIterator.next
        (Connection.CommandIterator.next ⟨[], false⟩).2).1 ≠ none := by decide

/-- Claim C3, amended: if a Frame Reader invocation during a
Response Sequence fails with a read error, that error is yielded as
an item of the sequence; but it is not terminal: the `finished` flag
is not set on the error path, so every subsequent step of the
sequence performs a further read and yields a further item (only a
Result chunk makes the sequence report completion). -/
theorem c3_error_yielded_not_terminal :
    (∀ bytes rest : List Nat, ∀ e : Connection.ReadChunkError,
      Connection.readChunkFrom bytes = (.error e, rest) →
      Connection.CommandIterator.next ⟨bytes, false⟩ = (some (.error e), ⟨rest, false⟩))
    ∧ (∀ bytes : List Nat,
        (Connection.CommandIterator.next ⟨bytes, false⟩).1.isSome = true) := by
  constructor
  · intro bytes rest e h
    simp [Connection.CommandIterator.next, h]
  · intro bytes
    unfold Connection.CommandIterator.next
    simp only [Bool.false_eq_true, if_false]
    rcases hr : Connection.readChunkFrom bytes with ⟨r, rest⟩
    cases r <;> simp

/-- Claim C3, witness: on an empty stream the Frame Reader fails
with a ReadChannel error and the iterator yields it as an item while
leaving the `finished` flag unset. -/
theorem c3_error_yielded_witness :
    Connection.readChunkFrom [] = (.error .ReadChannel, [])
    ∧ Connection.CommandIterator.next ⟨[], false⟩
        = (some (.error .ReadChannel), ⟨[], false⟩) :=
  ⟨by decide, c3_error_yielded_not_terminal.1 [] [] .ReadChannel (by decide)⟩

/-! ## Claim C4 -/

/-- Claim C4, counterexample: the 4-byte length field is not always
equal to the sum of the argument byte lengths plus the separator
count.  For the single argument consisting of 4294967296 bytes the
true blob length is 4294967296, but the `len as u32` cast makes the
written field the 4 bytes 0,0,0,0, which decode to 0, not to
4294967296. -/
theorem c4_length_field_counterexample :
    runCommandWrites [List.replicate 4294967296 97]
        = some (rcHeader ++ [0, 0, 0, 0] ++ List.replicate 4294967296 97)
    ∧ readBE32 0 0 0 0 = 0
    ∧ totalLen [List.replicate 4294967296 97] = 4294967296
    ∧ (0 : Nat) ≠ 4294967296 := by
  refine ⟨?_, by decide, totalLen_bigArg, by decide⟩
  rw [runCommandWrites, runCommandLen_bigArg]
  rw [show Option.map
      (fun len => rcHeader ++ be32bytes (len % 4294967296)
        ++ nulJoin [List.replicate 4294967296 (97 : Nat)]) (some 4294967296)
    = some (rcHeader ++ be32bytes (4294967296 % 4294967296)
        ++ nulJoin [List.replicate 4294967296 (97 : Nat)]) from rfl]
  rw [Nat.mod_self]
  rw [show be32bytes 0 = [0, 0, 0, 0] from rfl]
  rw [show nulJoin [List.replicate 4294967296 (97 : Nat)]
    = List.replicate 4294967296 97 from rfl]

/-- Claim C4, amended: for every non-empty list of k argument byte
strings, `run_command` writes exactly the literal bytes of
`"runcommand\n"`, then a 4-byte big-endian unsigned integer equal to
the sum of the argument byte lengths plus k minus 1 reduced modulo
2 to the 32 (equal to that sum exactly when it is below 2 to the 32),
then the arguments with a single NUL byte between each adjacent pair
and no trailing separator. -/
theorem c4_command_frame_bytes (args : List (List Nat)) (h : args ≠ []) :
    runCommandWrites args
      = some (rcHeader ++ be32bytes (totalLen args % 4294967296) ++ nulJoin args) := by
  rw [runCommandWrites, runCommandLen_nonempty args h]
  rfl

/-- Claim C4, witness: `run_command` on the arguments status and -v
writes the header, the big-endian length 9 and the bytes of
status NUL -v, matching the worked example of the spec. -/
theorem c4_command_frame_witness :
    (([[115, 116, 97, 116, 117, 115], [45, 118]] : List (List Nat)) ≠ [])
    ∧ runCommandWrites [[115, 116, 97, 116, 117, 115], [45, 118]]
        = some [114, 117, 110, 99, 111, 109, 109, 97, 110, 100, 10,
                0, 0, 0, 9, 115, 116, 97, 116, 117, 115, 0, 45, 118] :=
  ⟨by decide, by
    have h := c4_command_frame_bytes [[115, 116, 97, 116, 117, 115], [45, 118]] (by decide)
    exact h.trans (by decide)⟩

/-! ## Claim C5 -/

/-- Claim C5, counterexample: the blocking Frame Reader in
`src/lib.rs` does not surface an InvalidChannel error for an
unrecognized channel tag byte: on the tag byte 120 (the letter x) it
hits the catch-all `panic!` arm and aborts the process, modelled by
the `fatal` outcome. -/
theorem c5_lib_unknown_channel_aborts :
    Lib.readChunkFrom [120] = .fatal := by decide

/-- Claim C5, amended: in the tokio implementation
(`Channel::try_from` and `Connection::read_chunk_from` in
`src/connection.rs`), every channel tag byte other than o, e, d, r,
I, L yields an InvalidChannel error identifying that byte, as an
ordinary error value rather than a process abort (the stream is left
where it was after the tag byte, i.e. desynchronized).  The blocking
reader in `src/lib.rs` instead panics on such a byte (see the
counterexample). -/
theorem c5_invalid_channel_error (c : Nat) (rest : List Nat)
    (h1 : c ≠ 111) (h2 : c ≠ 101) (h3 : c ≠ 100) (h4 : c ≠ 114)
    (h5 : c ≠ 73) (h6 : c ≠ 76) :
    Connection.Channel.tryFrom c = .error ⟨c⟩
    ∧ Connection.readChunkFrom (c :: rest)
        = (.error (.InvalidChannel ⟨c⟩), rest) := by
  have ht : Connection.Channel.tryFrom c = .error ⟨c⟩ := by
    simp [Connection.Channel.tryFrom, h1, h2, h3, h4, h5, h6]
  exact ⟨ht, by simp [Connection.readChunkFrom, ht]⟩

/-- Claim C5, witness: the tag byte 120 (the letter x) with one
buffered byte behind it yields the InvalidChannel error naming byte
120 and leaves the buffered byte in the stream. -/
theorem c5_invalid_channel_witness :
    ((120 : Nat) ≠ 111) ∧ ((120 : Nat) ≠ 101) ∧ ((120 : Nat) ≠ 100)
    ∧ ((120 : Nat) ≠ 114) ∧ ((120 : Nat) ≠ 73) ∧ ((120 : Nat) ≠ 76)
    ∧ (Connection.Channel.tryFrom 120 = .error ⟨120⟩
        ∧ Connection.readChunkFrom [120, 5]
            = (.error (.InvalidChannel ⟨120⟩), [5])) :=
  ⟨by decide, by decide, by decide, by decide, by decide, by decide,
    c5_invalid_channel_error 120 [5]
      (by decide) (by decide) (by decide) (by decide) (by decide) (by decide)⟩

/-! ## Claim C9 -/

/-- Claim C9: on an empty argument list the length computation of
`run_command` underflows (`usize` subtraction of 1 from 0), so
nothing is written and the call is a program error; on every
non-empty argument list the computation is well defined, confirming
that the k minus 1 formula presupposes at least one argument and
that the code does not guard the empty case. -/
theorem c9_empty_args_underflow :
    runCommandLen [] = none
    ∧ runCommandWrites [] = none
    ∧ (∀ args : List (List Nat), args ≠ [] → (runCommandWrites args).isSome = true) := by
  refine ⟨by decide, by decide, ?_⟩
  intro args h
  rw [runCommandWrites, runCommandLen_nonempty args h]
  rfl

/-- Claim C9, witness: a one-argument list is accepted. -/
theorem c9_empty_args_witness :
    (([[97]] : List (List Nat)) ≠ [])
    ∧ (runCommandWrites [[97]]).isSome = true :=
  ⟨by decide, c9_empty_args_underflow.2.2 [[97]] (by decide)⟩

/-! ## Claim C10 -/

/-- Claim C10: the length field of a command frame is the total
NUL-joined blob length truncated to 32 bits.  For every argument
list whose total length is at least 2 to the 32, the written field
holds the total length modulo 2 to the 32, the payload written
afterwards has the full total length, and the two disagree. -/
theorem c10_length_field_truncation (args : List (List Nat))
    (h : 4294967296 ≤ totalLen args) :
    runCommandWrites args
        = some (rcHeader ++ be32bytes (totalLen args % 4294967296) ++ nulJoin args)
    ∧ (nulJoin args).length = totalLen args
    ∧ readBE32 (totalLen args % 4294967296 / 16777216 % 256)
        (totalLen args % 4294967296 / 65536 % 256)
        (totalLen args % 4294967296 / 256 % 256)
        (totalLen args % 4294967296 % 256) = totalLen args % 4294967296
    ∧ totalLen args % 4294967296 ≠ totalLen args := by
  have hne : args ≠ [] := by
    intro he
    rw [he] at h
    simp [totalLen] at h
  refine ⟨?_, nulJoin_length args hne, ?_, ?_⟩
  · rw [runCommandWrites, runCommandLen_nonempty args hne]
    rfl
  · rw [readBE32_be32bytes]
    exact Nat.mod_mod_of_dvd _ (by norm_num)
  · have hlt := Nat.mod_lt (totalLen args) (show 0 < 4294967296 by norm_num)
    omega

/-- Claim C10, witness: a single argument of 4294967296 bytes has
total length 4294967296; the written field holds 0 while the payload
written afterwards has 4294967296 bytes. -/
theorem c10_length_field_witness :
    4294967296 ≤ totalLen [List.replicate 4294967296 97]
    ∧ (runCommandWrites [List.replicate 4294967296 97]
          = some (rcHeader
              ++ be32bytes (totalLen [List.replicate 4294967296 97] % 4294967296)
              ++ nulJoin [List.replicate 4294967296 97])
        ∧ (nulJoin [List.replicate 4294967296 97]).length
            = totalLen [List.replicate 4294967296 97]
        ∧ readBE32 (totalLen [List.replicate 4294967296 97] % 4294967296 / 16777216 % 256)
            (totalLen [List.replicate 4294967296 97] % 4294967296 / 65536 % 256)
            (totalLen [List.replicate 4294967296 97] % 4294967296 / 256 % 256)
            (totalLen [List.replicate 4294967296 97] % 4294967296 % 256)
            = totalLen [List.replicate 4294967296 97] % 4294967296
        ∧ totalLen [List.replicate 4294967296 97] % 4294967296
            ≠ totalLen [List.replicate 4294967296 97]) :=
  ⟨by rw [totalLen_bigArg],
    c10_length_field_truncation [List.replicate 4294967296 97] (by rw [totalLen_bigArg])⟩


/-! ## Claim C6 -/

/-- Claim C6, counterexample: the missing-field errors are not
independent.  The empty hello payload contains neither an encoding
line nor a capabilities line, yet parsing fails with NoEncoding, not
with NoCapabilities, because the encoding check runs first; so the
clause that a payload with no capabilities line fails with
NoCapabilities is false as stated. -/
theorem c6_missing_fields_counterexample :
    Connection.helloFields [] = (none, none)
    ∧ Connection.parseHello [] = .error .NoEncoding
    ∧ Connection.parseHello [] ≠ .error .NoCapabilities := by decide

/-- Claim C6, amended: handshake parsing applies its checks in
order.  If the scan of the payload produced no encoding field it
fails with NoEncoding (even when capabilities is also missing); if
an encoding field was produced but no capabilities field, it fails
with NoCapabilities; if both were produced but the resolved
capability set lacks RunCommand, it fails with MissingRunCommand.
In each case `parse_hello` returns an error, so Connection
construction fails entirely and no Connection is produced. -/
theorem c6_hello_missing_fields :
    (∀ p : List Char, (Connection.helloFields p).1 = none →
        Connection.parseHello p = .error .NoEncoding)
    ∧ (∀ p : List Char, ∀ enc : List Char,
        Connection.helloFields p = (some enc, none) →
        Connection.parseHello p = .error .NoCapabilities)
    ∧ (∀ p : List Char, ∀ enc : List Char, ∀ caps : List Capability,
        Connection.helloFields p = (some enc, some caps) →
        Capability.RunCommand ∉ caps →
        Connection.parseHello p = .error .MissingRunCommand) := by
  refine ⟨?_, ?_, ?_⟩
  · intro p h
    rcases hf : Connection.helloFields p with ⟨e, c⟩
    rw [hf] at h
    simp only at h
    subst h
    simp [Connection.parseHello, hf]
  · intro p enc h
    simp [Connection.parseHello, h]
  · intro p enc caps h htrue
    simp [Connection.parseHello, h, htrue]

/-- Claim C6, witness: a payload with only a capabilities line fails
with NoEncoding; a payload with only an encoding line fails with
NoCapabilities; a payload with both lines but without the runcommand
token fails with MissingRunCommand. -/
theorem c6_hello_missing_fields_witness :
    ((Connection.helloFields "capabilities: runcommand\n".toList).1 = none
      ∧ Connection.parseHello "capabilities: runcommand\n".toList
          = .error .NoEncoding)
    ∧ (Connection.helloFields "encoding: UTF-8\n".toList
          = (some "UTF-8".toList, none)
      ∧ Connection.parseHello "encoding: UTF-8\n".toList
          = .error .NoCapabilities)
    ∧ (Connection.helloFields "capabilities: foo\nencoding: UTF-8\n".toList
          = (some "UTF-8".toList, some [Capability.Unknown "foo".toList])
      ∧ Capability.RunCommand ∉ [Capability.Unknown "foo".toList]
      ∧ Connection.parseHello "capabilities: foo\nencoding: UTF-8\n".toList
          = .error .MissingRunCommand) :=
  ⟨⟨by decide, c6_hello_missing_fields.1 "capabilities: runcommand\n".toList (by decide)⟩,
   ⟨by decide, c6_hello_missing_fields.2.1 "encoding: UTF-8\n".toList
      "UTF-8".toList (by decide)⟩,
   ⟨by decide, by decide,
    c6_hello_missing_fields.2.2 "capabilities: foo\nencoding: UTF-8\n".toList
      "UTF-8".toList [Capability.Unknown "foo".toList] (by decide) (by decide)⟩⟩

/-! ## Claim C7 -/

/-- Claim C7: parsing the hello payload with capability tokens
runcommand and getencoding and encoding UTF-8 succeeds, yielding the
encoding text UTF-8 and exactly the capability set containing
RunCommand and GetEncoding; and every line whose key is neither
capabilities nor encoding leaves the parser state unchanged, i.e.
unrecognized keys are ignored. -/
theorem c7_hello_roundtrip :
    (Connection.parseHello
        "capabilities: runcommand getencoding\nencoding: UTF-8\n".toList
      = .ok ("UTF-8".toList, [Capability.RunCommand, Capability.GetEncoding]))
    ∧ (∀ c : Capability,
        c ∈ [Capability.RunCommand, Capability.GetEncoding]
          ↔ (c = Capability.RunCommand ∨ c = Capability.GetEncoding))
    ∧ (∀ st : Option (List Char) × Option (List Capability),
        ∀ line k v : List Char,
        Connection.splitKeyValue line = some (k, v) →
        k ≠ "capabilities".toList → k ≠ "encoding".toList →
        Connection.helloStep st line = st) := by
  refine ⟨by decide, ?_, ?_⟩
  · intro c
    simp [List.mem_cons]
  · intro st line k v h hk1 hk2
    simp only [Connection.helloStep, h]
    rw [if_neg hk1, if_neg hk2]

/-- Claim C7, witness: the line with the unrecognized key fruit is
ignored by the line loop. -/
theorem c7_hello_roundtrip_witness :
    Connection.splitKeyValue "fruit: apple".toList
        = some ("fruit".toList, "apple".toList)
    ∧ "fruit".toList ≠ "capabilities".toList
    ∧ "fruit".toList ≠ "encoding".toList
    ∧ Connection.helloStep (none, none) "fruit: apple".toList = (none, none) :=
  ⟨by decide, by decide, by decide,
    c7_hello_roundtrip.2.2 (none, none) "fruit: apple".toList
      "fruit".toList "apple".toList (by decide) (by decide) (by decide)⟩

/-! ## Claim C8 -/

/-- Claim C8: capability resolution is a total function (it is a
Lean function, hence never fails): the token runcommand maps to
RunCommand, the token getencoding maps to GetEncoding, and every
other string maps to Unknown carrying the original text unchanged;
in particular frobnicate resolves to Unknown frobnicate. -/
theorem c8_capability_resolution :
    capabilityFrom "runcommand".toList = Capability.RunCommand
    ∧ capabilityFrom "getencoding".toList = Capability.GetEncoding
    ∧ (∀ s : List Char, s ≠ "runcommand".toList → s ≠ "getencoding".toList →
        capabilityFrom s = Capability.Unknown s)
    ∧ capabilityFrom "frobnicate".toList
        = Capability.Unknown "frobnicate".toList := by
  refine ⟨by decide, by decide, ?_, by decide⟩
  intro s h1 h2
  rw [capabilityFrom, if_neg h1, if_neg h2]

/-- Claim C8, witness: the unrecognized token frobnicate resolves to
Unknown with its text preserved. -/
theorem c8_capability_resolution_witness :
    "frobnicate".toList ≠ "runcommand".toList
    ∧ "frobnicate".toList ≠ "getencoding".toList
    ∧ capabilityFrom "frobnicate".toList
        = Capability.Unknown "frobnicate".toList :=
  ⟨by decide, by decide,
    c8_capability_resolution.2.2.1 "frobnicate".toList (by decide) (by decide)⟩
